import Mathlib

/-!
# Verification of the tpc-ai PDF extraction scripts

Shallow embedding of `src/scripts/extract_pdf.py` and `src/scripts/ocr_pdf.py`.

Text is modelled as `List Char`.  The effects of the third-party libraries
(pdfplumber, pdf2image, pytesseract) are parameters of the embedded `main`
functions: a per-page extraction outcome for the text extractor, and an
environment value describing the outcome of the import/convert/OCR block for
the OCR script.  Python floats are modelled as exact rationals `ℚ`.
-/

/-- Accumulator-based whitespace splitter.  `tokensAux acc s` processes `s`
with the (reversed) current in-progress token `acc`; it models the behaviour
of Python's `str.split()` with no arguments: split on runs of whitespace and
drop empty tokens. -/
def tokensAux : List Char → List Char → List (List Char)
  | acc, [] => if acc.isEmpty then [] else [acc.reverse]
  | acc, c :: cs =>
    if c.isWhitespace then
      if acc.isEmpty then tokensAux [] cs
      else acc.reverse :: tokensAux [] cs
    else tokensAux (c :: acc) cs

/-- Python's `s.split()`: the whitespace-separated tokens of `s`. -/
def tokens (s : List Char) : List (List Char) := tokensAux [] s

/-- Python's `sep.join(parts)`. -/
def joinSep (sep : List Char) : List (List Char) → List Char
  | [] => []
  | [x] => x
  | x :: y :: xs => x ++ sep ++ joinSep sep (y :: xs)

/-- Python's `round(x, 2)` modelled on exact rationals (the tie-breaking of
binary floating point is not modelled; no claim depends on ties). -/
def round2 (q : ℚ) : ℚ := (round (q * 100) : ℤ) / 100

theorem tokensAux_append_ws {w : Char} (hw : w.isWhitespace = true) :
    ∀ (a acc b : List Char),
      tokensAux acc (a ++ w :: b) = tokensAux acc a ++ tokensAux [] b := by
  intro a
  induction a with
  | nil =>
      intro acc b
      simp only [List.nil_append, tokensAux, hw, if_true]
      by_cases h : acc.isEmpty <;> simp [h]
  | cons c a ih =>
      intro acc b
      by_cases hc : c.isWhitespace
      · by_cases h : acc.isEmpty <;>
          simp [tokensAux, hc, h, ih]
      · simp [tokensAux, hc, ih]

theorem tokens_append_ws {w : Char} (hw : w.isWhitespace = true)
    (a b : List Char) : tokens (a ++ w :: b) = tokens a ++ tokens b :=
  tokensAux_append_ws hw a [] b

theorem tokensAux_all_nonws :
    ∀ (s acc : List Char), (∀ c ∈ s, c.isWhitespace = false) →
      tokensAux acc s =
        if (acc.reverse ++ s).isEmpty then [] else [acc.reverse ++ s] := by
  intro s
  induction s with
  | nil => intro acc _; simp [tokensAux, List.isEmpty_iff]
  | cons c s ih =>
      intro acc h
      have hc : c.isWhitespace = false := h c (by simp)
      have hrest : ∀ x ∈ s, x.isWhitespace = false := fun x hx => h x (by simp [hx])
      simp only [tokensAux, hc, Bool.false_eq_true, if_false]
      rw [ih (c :: acc) hrest]
      simp

theorem tokens_all_nonws {s : List Char} (hne : s ≠ [])
    (h : ∀ c ∈ s, c.isWhitespace = false) : tokens s = [s] := by
  unfold tokens
  rw [tokensAux_all_nonws s [] h]
  simp [List.isEmpty_iff, hne]

theorem tokens_nil : tokens [] = [] := rfl

theorem tokens_ws_cons {w : Char} (hw : w.isWhitespace = true) (b : List Char) :
    tokens (w :: b) = tokens b := by
  simp [tokens, tokensAux, hw]

/-- Splitting the `"\n\n"`-joined parts tokenizes each part separately. -/
theorem tokens_joinSep_newlines :
    ∀ parts : List (List Char),
      tokens (joinSep ['\n', '\n'] parts) = (parts.map tokens).flatten := by
  intro parts
  induction parts with
  | nil => rfl
  | cons x t ih =>
      cases t with
      | nil => simp [joinSep]
      | cons y t' =>
          have hnl : ('\n').isWhitespace = true := by decide
          calc tokens (joinSep ['\n', '\n'] (x :: y :: t'))
              = tokens (x ++ '\n' :: '\n' :: joinSep ['\n', '\n'] (y :: t')) := by
                simp [joinSep]
            _ = tokens x ++ tokens ('\n' :: joinSep ['\n', '\n'] (y :: t')) :=
                tokens_append_ws hnl _ _
            _ = tokens x ++ tokens (joinSep ['\n', '\n'] (y :: t')) := by
                rw [tokens_ws_cons hnl]
            _ = ((x :: y :: t').map tokens).flatten := by
                rw [ih]; simp

/-- An element of `parts` occurs inside the joined text. -/
theorem infix_joinSep {x : List Char} (sep : List Char) :
    ∀ parts : List (List Char), x ∈ parts → x <:+: joinSep sep parts := by
  intro parts
  induction parts with
  | nil => intro h; exact absurd h (List.not_mem_nil x)
  | cons a t ih =>
      intro hmem
      cases t with
      | nil =>
          have : x = a := by simpa using hmem
          subst this
          exact List.infix_refl x
      | cons y t' =>
          rcases List.mem_cons.mp hmem with h | h
          · subst h
            exact ⟨[], sep ++ joinSep sep (y :: t'), by simp [joinSep]⟩
          · obtain ⟨s, t, hst⟩ := ih h
            exact ⟨a ++ sep ++ s, t, by simp [joinSep, ← hst]⟩

theorem digitChar_not_ws : ∀ k < 10, (Nat.digitChar k).isWhitespace = false := by
  decide

theorem toDigitsCore_ne_nil :
    ∀ (fuel n : ℕ) (ds : List Char), fuel ≠ 0 ∨ ds ≠ [] →
      Nat.toDigitsCore 10 fuel n ds ≠ [] := by
  intro fuel
  induction fuel with
  | zero =>
      intro n ds h
      rcases h with h | h
      · exact absurd rfl h
      · simpa [Nat.toDigitsCore] using h
  | succ fuel ih =>
      intro n ds _
      simp only [Nat.toDigitsCore]
      split
      · simp
      · exact ih (n / 10) _ (Or.inr (by simp))

theorem toDigitsCore_nonws :
    ∀ (fuel n : ℕ) (ds : List Char), (∀ c ∈ ds, c.isWhitespace = false) →
      ∀ c ∈ Nat.toDigitsCore 10 fuel n ds, c.isWhitespace = false := by
  intro fuel
  induction fuel with
  | zero => intro n ds h; simpa [Nat.toDigitsCore] using h
  | succ fuel ih =>
      intro n ds h
      have hd : (Nat.digitChar (n % 10)).isWhitespace = false :=
        digitChar_not_ws _ (Nat.mod_lt _ (by norm_num))
      simp only [Nat.toDigitsCore]
      split
      · intro c hc
        rcases List.mem_cons.mp hc with rfl | hc
        · exact hd
        · exact h c hc
      · refine ih (n / 10) _ ?_
        intro c hc
        rcases List.mem_cons.mp hc with rfl | hc
        · exact hd
        · exact h c hc

theorem repr_data_ne_nil (n : ℕ) : (Nat.repr n).data ≠ [] :=
  toDigitsCore_ne_nil (n + 1) n [] (Or.inl (by simp))

theorem repr_data_nonws (n : ℕ) :
    ∀ c ∈ (Nat.repr n).data, c.isWhitespace = false :=
  toDigitsCore_nonws (n + 1) n [] (by simp)

namespace ExtractPdf

/-- The `quality` sub-record of the text extractor's success output. -/
structure Quality where
  avgWordLength : ℚ
  longWordCount : ℕ
  wordCount : ℕ
deriving DecidableEq

/-- The JSON record returned by `extract_text`.  A success record is
`⟨true, text, some pages, some chars, some quality, none⟩`; the record built
in the exception handler is `⟨false, [], none, none, none, some error⟩`
(the handler's dict has only the keys `success`, `error`, `text`). -/
structure ExtractResult where
  success : Bool
  text : List Char
  pages : Option ℕ
  chars : Option ℕ
  quality : Option Quality
  error : Option (List Char)
deriving DecidableEq

/-- Outcome of opening and page-iterating the PDF with pdfplumber:
either an exception (with its message) anywhere inside the `try` block, or a
per-page list of `page.extract_text` results (`none` models Python `None`). -/
inductive PdfDoc
  | err (msg : List Char)
  | ok (pageTexts : List (Option (List Char)))

/-- The `text_parts` list: page texts surviving the `if page_text:` truthiness
test (drops both `None` and the empty string). -/
def textParts (pr : List (Option (List Char))) : List (List Char) :=
  pr.filterMap fun p =>
    match p with
    | some t => if t.isEmpty then none else some t
    | none => none

/-- `full_text = '\n\n'.join(text_parts)`. -/
def extractFullText (pr : List (Option (List Char))) : List Char :=
  joinSep ['\n', '\n'] (textParts pr)

/-- `words = full_text.split()`. -/
def extractWords (pr : List (Option (List Char))) : List (List Char) :=
  tokens (extractFullText pr)

/-- `avg_word_length = sum(len(w) for w in words) / len(words) if words else 0`. -/
def extractAvg (pr : List (Option (List Char))) : ℚ :=
  if (extractWords pr).isEmpty then 0
  else (((extractWords pr).map List.length).sum : ℚ) / ((extractWords pr).length : ℚ)

/-- Embedding of `extract_text` from `src/scripts/extract_pdf.py`. -/
def extract_text (pdf : PdfDoc) : ExtractResult :=
  match pdf with
  | .ok pr =>
      ⟨true, extractFullText pr, some pr.length, some (extractFullText pr).length,
        some ⟨round2 (extractAvg pr),
          ((extractWords pr).filter fun w => 20 < w.length).length,
          (extractWords pr).length⟩,
        none⟩
  | .err msg => ⟨false, [], none, none, none, some msg⟩

/-- What the script prints: either the bare `__main__` guard error record
`\x7b"success": false, "error": error\x7d`, or the `extract_text` result. -/
inductive ExtractOutput
  | simpleErr (error : List Char)
  | result (r : ExtractResult)
deriving DecidableEq

/-- Embedding of the `__main__` block of `extract_pdf.py`: the printed record
and the process exit status.  `openF` is the pdfplumber effect, mapping the
path argument to the outcome of the `try` block. -/
def extractMain (argv : List (List Char)) (openF : List Char → PdfDoc) :
    ExtractOutput × ℕ :=
  if argv.length < 2 then (.simpleErr "No file path provided".data, 1)
  else (.result (extract_text (openF (argv.getD 1 []))), 0)

end ExtractPdf

namespace OcrPdf

/-- Outcome of the `try` block's external work in `ocr_pdf.py`: an
`ImportError` on the `pdf2image`/`pytesseract`/`PIL` imports, some other
exception (conversion or OCR failure), or success with the per-image
`pytesseract.image_to_string` results (one entry per converted page). -/
inductive OcrEnv
  | importError (msg : List Char)
  | otherError (msg : List Char)
  | ok (pageTexts : List (List Char))

/-- The JSON record printed by `ocr_pdf.py`.  An error record is
`⟨false, some error, none, …, none⟩`; the success record fills every field
except `error`. -/
structure OcrOutput where
  success : Bool
  error : Option (List Char)
  text : Option (List Char)
  pages : Option ℕ
  chars : Option ℕ
  words : Option ℕ
  avgWordLen : Option ℚ
  quality : Option ℚ
  method : Option (List Char)
deriving DecidableEq

/-- Embedding of lines 23–29 of `ocr_pdf.py`: `lang` starts as `"ind+eng"`
and is replaced by the argument following the first occurrence of `--lang`,
when such an argument exists. -/
def parseLang (argv : List (List Char)) : List Char :=
  if "--lang".data ∈ argv then
    if argv.indexOf "--lang".data + 1 < argv.length then
      argv.getD (argv.indexOf "--lang".data + 1) []
    else "ind+eng".data
  else "ind+eng".data

/-- The page delimiter `--- Page {n} ---` (Python's `str` of the 1-based
page number is modelled by `Nat.repr`). -/
def pageDelim (n : ℕ) : List Char :=
  "--- Page ".data ++ (Nat.repr n).data ++ " ---".data

/-- One entry of `all_text`: `f"--- Page \x7bi+1\x7d ---\n\x7bpage_text\x7d"`. -/
def pageBlock (n : ℕ) (p : List Char) : List Char := pageDelim n ++ '\n' :: p

/-- The `all_text` list built by the `enumerate(images)` loop, with `n` the
1-based number of the first page. -/
def pageBlocks : ℕ → List (List Char) → List (List Char)
  | _, [] => []
  | n, p :: ps => pageBlock n p :: pageBlocks (n + 1) ps

/-- `full_text = "\n\n".join(all_text)`. -/
def ocrFullText (pts : List (List Char)) : List Char :=
  joinSep ['\n', '\n'] (pageBlocks 1 pts)

/-- `words = full_text.split()`. -/
def ocrWords (pts : List (List Char)) : List (List Char) :=
  tokens (ocrFullText pts)

/-- `avg_word_len = sum(len(w) for w in words) / max(1, word_count)`. -/
def ocrAvgWordLen (pts : List (List Char)) : ℚ :=
  (((ocrWords pts).map List.length).sum : ℚ) / ((max 1 (ocrWords pts).length : ℕ) : ℚ)

/-- `long_word_ratio = long_words / max(1, word_count)` where `long_words`
counts tokens longer than 25 characters. -/
def ocrLongFrac (pts : List (List Char)) : ℚ :=
  ((((ocrWords pts).filter fun w => 25 < w.length).length : ℕ) : ℚ) /
    ((max 1 (ocrWords pts).length : ℕ) : ℚ)

/-- The threshold rules of lines 95–100 selecting the quality score. -/
def ocrQuality (pts : List (List Char)) : ℚ :=
  if ocrAvgWordLen pts < 3 ∨ 15 < ocrAvgWordLen pts then 3 / 10
  else if 1 / 10 < ocrLongFrac pts then 1 / 2
  else 4 / 5

/-- Embedding of `main` from `src/scripts/ocr_pdf.py`: the printed record and
the process exit status.  `ex` is `os.path.exists`; `envF` maps the parsed
language to the outcome of the `try` block's external work. -/
def ocrMain (argv : List (List Char)) (ex : List Char → Bool)
    (envF : List Char → OcrEnv) : OcrOutput × ℕ :=
  if argv.length < 2 then
    (⟨false, some "No PDF path provided".data,
      none, none, none, none, none, none, none⟩, 1)
  else if ex (argv.getD 1 []) = false then
    (⟨false, some ("File not found: ".data ++ argv.getD 1 []),
      none, none, none, none, none, none, none⟩, 1)
  else
    match envF (parseLang argv) with
    | .importError msg =>
        (⟨false, some ("Missing dependency: ".data ++ msg ++
          ". Install with: pip install pdf2image pytesseract Pillow".data),
          none, none, none, none, none, none, none⟩, 1)
    | .otherError msg =>
        (⟨false, some msg, none, none, none, none, none, none, none⟩, 1)
    | .ok pts =>
        (⟨true, none, some (ocrFullText pts), some pts.length,
          some (ocrFullText pts).length, some (ocrWords pts).length,
          some (round2 (ocrAvgWordLen pts)), some (ocrQuality pts),
          some "tesseract_ocr".data⟩, 0)

theorem tokens_pageBlock (n : ℕ) (p : List Char) :
    tokens (pageBlock n p) =
      ['-', '-', '-'] :: ['P', 'a', 'g', 'e'] :: (Nat.repr n).data ::
        ['-', '-', '-'] :: tokens p := by
  have hsp : (' ' : Char).isWhitespace = true := by decide
  have hnl : ('\n' : Char).isWhitespace = true := by decide
  have hd1 : "--- Page ".data = ['-', '-', '-', ' ', 'P', 'a', 'g', 'e', ' '] := rfl
  have hd2 : " ---".data = [' ', '-', '-', '-'] := rfl
  have hblock : pageBlock n p =
      ['-', '-', '-'] ++ ' ' :: (['P', 'a', 'g', 'e'] ++ ' ' ::
        ((Nat.repr n).data ++ ' ' :: (['-', '-', '-'] ++ '\n' :: p))) := by
    unfold pageBlock pageDelim
    rw [hd1, hd2]
    simp
  rw [hblock, tokens_append_ws hsp, tokens_append_ws hsp, tokens_append_ws hsp,
    tokens_append_ws hnl,
    tokens_all_nonws (repr_data_ne_nil n) (repr_data_nonws n)]
  have t1 : tokens ['-', '-', '-'] = [['-', '-', '-']] := by decide
  have t2 : tokens ['P', 'a', 'g', 'e'] = [['P', 'a', 'g', 'e']] := by decide
  rw [t1, t2]
  simp

theorem pageBlock_mem :
    ∀ (pts : List (List Char)) (n j : ℕ) (h : j < pts.length),
      pageBlock (n + j) (pts.get ⟨j, h⟩) ∈ pageBlocks n pts := by
  intro pts
  induction pts with
  | nil => intro n j h; simp at h
  | cons p ps ih =>
      intro n j h
      cases j with
      | zero => simp [pageBlocks]
      | succ j =>
          have h' : j < ps.length := by simpa using h
          have hmem := ih (n + 1) j h'
          have harith : n + (j + 1) = n + 1 + j := by omega
          simp only [pageBlocks, List.mem_cons, List.get_cons_succ]
          exact Or.inr (harith ▸ hmem)

theorem word_count_pageBlocks :
    ∀ (pts : List (List Char)) (n : ℕ),
      4 * pts.length ≤ (tokens (joinSep ['\n', '\n'] (pageBlocks n pts))).length := by
  intro pts
  induction pts with
  | nil => intro n; simp [pageBlocks, joinSep]
  | cons p ps ih =>
      intro n
      rw [tokens_joinSep_newlines, List.length_flatten]
      have hrest := ih (n + 1)
      rw [tokens_joinSep_newlines, List.length_flatten] at hrest
      have hhead : (tokens (pageBlock n p)).length = 4 + (tokens p).length := by
        rw [tokens_pageBlock]; simp; omega
      simp only [pageBlocks, List.map_cons, List.sum_cons, hhead, List.length_cons]
      omega

end OcrPdf

/-- C1: For every OCR run that reaches the quality computation, if the average
word length of the concatenated OCR text (total token length divided by
`max 1 tokenCount`, tokens split on whitespace) is strictly less than 3 or
strictly greater than 15, then the emitted quality score is exactly 0.3. -/
theorem ocr_quality_avg_out_of_range
    (argv : List (List Char)) (ex : List Char → Bool)
    (envF : List Char → OcrPdf.OcrEnv) (pts : List (List Char))
    (h1 : 2 ≤ argv.length) (h2 : ex (argv.getD 1 []) = true)
    (h3 : envF (OcrPdf.parseLang argv) = OcrPdf.OcrEnv.ok pts)
    (h4 : OcrPdf.ocrAvgWordLen pts < 3 ∨ 15 < OcrPdf.ocrAvgWordLen pts) :
    (OcrPdf.ocrMain argv ex envF).1.quality = some (3 / 10) := by
  unfold OcrPdf.ocrMain
  rw [if_neg (by omega), if_neg (by rw [h2]; decide), h3]
  show some (OcrPdf.ocrQuality pts) = some (3 / 10)
  unfold OcrPdf.ocrQuality
  rw [if_pos h4]

/-- Witness for C1: a single page whose OCR text is `"a"` has average word
length 12/5 < 3 and yields quality 0.3. -/
theorem ocr_quality_avg_out_of_range_witness :
    OcrPdf.ocrAvgWordLen [['a']] < 3 ∧
    (OcrPdf.ocrMain [['p'], ['f']] (fun _ => true)
      (fun _ => OcrPdf.OcrEnv.ok [['a']])).1.quality = some (3 / 10) := by
  have hw : OcrPdf.ocrWords [['a']] =
      [['-', '-', '-'], ['P', 'a', 'g', 'e'], ['1'], ['-', '-', '-'], ['a']] := by
    decide
  have havg : OcrPdf.ocrAvgWordLen [['a']] < 3 := by
    unfold OcrPdf.ocrAvgWordLen
    rw [hw]
    norm_num
  exact ⟨havg, ocr_quality_avg_out_of_range [['p'], ['f']] (fun _ => true)
    (fun _ => OcrPdf.OcrEnv.ok [['a']]) [['a']] (by decide) rfl rfl (Or.inl havg)⟩

/-- C2: For every OCR run that reaches the quality computation with average
word length in [3,15]: the emitted quality score is exactly 0.5 when the
fraction of tokens longer than 25 characters (over `max 1 tokenCount`) is
strictly greater than 0.1, and exactly 0.8 otherwise. -/
theorem ocr_quality_avg_in_range
    (argv : List (List Char)) (ex : List Char → Bool)
    (envF : List Char → OcrPdf.OcrEnv) (pts : List (List Char))
    (h1 : 2 ≤ argv.length) (h2 : ex (argv.getD 1 []) = true)
    (h3 : envF (OcrPdf.parseLang argv) = OcrPdf.OcrEnv.ok pts)
    (h4 : 3 ≤ OcrPdf.ocrAvgWordLen pts) (h5 : OcrPdf.ocrAvgWordLen pts ≤ 15) :
    (1 / 10 < OcrPdf.ocrLongFrac pts →
        (OcrPdf.ocrMain argv ex envF).1.quality = some (1 / 2)) ∧
    (OcrPdf.ocrLongFrac pts ≤ 1 / 10 →
        (OcrPdf.ocrMain argv ex envF).1.quality = some (4 / 5)) := by
  have hq : (OcrPdf.ocrMain argv ex envF).1.quality =
      some (OcrPdf.ocrQuality pts) := by
    unfold OcrPdf.ocrMain
    rw [if_neg (by omega), if_neg (by rw [h2]; decide), h3]
  have hcond : ¬(OcrPdf.ocrAvgWordLen pts < 3 ∨ 15 < OcrPdf.ocrAvgWordLen pts) := by
    push_neg
    exact ⟨h4, h5⟩
  constructor
  · intro hfrac
    rw [hq]
    unfold OcrPdf.ocrQuality
    rw [if_neg hcond, if_pos hfrac]
  · intro hfrac
    rw [hq]
    unfold OcrPdf.ocrQuality
    rw [if_neg hcond, if_neg (not_lt.mpr hfrac)]

/-- Witness for C2: a single page whose OCR text is `"abcde"` has average word
length 16/5 ∈ [3,15], long-token fraction 0, and yields quality 0.8. -/
theorem ocr_quality_avg_in_range_witness :
    3 ≤ OcrPdf.ocrAvgWordLen [['a', 'b', 'c', 'd', 'e']] ∧
    OcrPdf.ocrAvgWordLen [['a', 'b', 'c', 'd', 'e']] ≤ 15 ∧
    (OcrPdf.ocrMain [['p'], ['f']] (fun _ => true)
      (fun _ => OcrPdf.OcrEnv.ok [['a', 'b', 'c', 'd', 'e']])).1.quality =
        some (4 / 5) := by
  have hw : OcrPdf.ocrWords [['a', 'b', 'c', 'd', 'e']] =
      [['-', '-', '-'], ['P', 'a', 'g', 'e'], ['1'], ['-', '-', '-'],
        ['a', 'b', 'c', 'd', 'e']] := by
    decide
  have h4 : 3 ≤ OcrPdf.ocrAvgWordLen [['a', 'b', 'c', 'd', 'e']] := by
    unfold OcrPdf.ocrAvgWordLen
    rw [hw]
    norm_num
  have h5 : OcrPdf.ocrAvgWordLen [['a', 'b', 'c', 'd', 'e']] ≤ 15 := by
    unfold OcrPdf.ocrAvgWordLen
    rw [hw]
    norm_num
  have hfrac : OcrPdf.ocrLongFrac [['a', 'b', 'c', 'd', 'e']] ≤ 1 / 10 := by
    unfold OcrPdf.ocrLongFrac
    rw [hw]
    norm_num
  exact ⟨h4, h5, (ocr_quality_avg_in_range [['p'], ['f']] (fun _ => true)
    (fun _ => OcrPdf.OcrEnv.ok [['a', 'b', 'c', 'd', 'e']])
    [['a', 'b', 'c', 'd', 'e']] (by decide) rfl rfl h4 h5).2 hfrac⟩

/-- C3: For every PDF processed without an exception, the success record's
`pages` field equals the number of pages the library reports (the length of
the per-page result list) and its `chars` field equals the length of its
`text` field. -/
theorem extract_pages_and_chars (pr : List (Option (List Char))) :
    (ExtractPdf.extract_text (.ok pr)).pages = some pr.length ∧
    (ExtractPdf.extract_text (.ok pr)).chars =
      some (ExtractPdf.extract_text (.ok pr)).text.length :=
  ⟨rfl, rfl⟩

/-- C4: For every run whose concatenated extracted text has no whitespace
tokens, the success record has `quality.wordCount = 0` and
`quality.avgWordLength = 0` (the division is behind the `if words else 0`
guard, so the zero-token case performs no division at all). -/
theorem extract_empty_text_quality (pr : List (Option (List Char)))
    (h : ExtractPdf.extractWords pr = []) :
    (ExtractPdf.extract_text (.ok pr)).quality =
      some ⟨0, 0, 0⟩ := by
  have havg : ExtractPdf.extractAvg pr = 0 := by
    unfold ExtractPdf.extractAvg
    rw [h]
    simp
  show some ⟨round2 (ExtractPdf.extractAvg pr),
      ((ExtractPdf.extractWords pr).filter fun w => 20 < w.length).length,
      (ExtractPdf.extractWords pr).length⟩ =
    some (⟨0, 0, 0⟩ : ExtractPdf.Quality)
  rw [h, havg]
  simp [round2]

/-- Witness for C4: a one-page PDF whose page yields `None` produces no
tokens, word count 0 and average word length 0. -/
theorem extract_empty_text_quality_witness :
    ExtractPdf.extractWords [none] = [] ∧
    (ExtractPdf.extract_text (.ok [none])).quality = some ⟨0, 0, 0⟩ :=
  ⟨by decide, extract_empty_text_quality [none] (by decide)⟩

/-- C5: For every invocation of the OCR script whose path argument does not
exist, the script prints exactly the record
`\x7b"success": false, "error": "File not found: <path>"\x7d` and exits with
status 1, independently of the conversion/OCR environment (no conversion or
OCR is attempted). -/
theorem ocr_file_not_found
    (argv : List (List Char)) (ex : List Char → Bool)
    (envF : List Char → OcrPdf.OcrEnv)
    (h1 : 2 ≤ argv.length) (h2 : ex (argv.getD 1 []) = false) :
    OcrPdf.ocrMain argv ex envF =
      (⟨false, some ("File not found: ".data ++ argv.getD 1 []),
        none, none, none, none, none, none, none⟩, 1) := by
  unfold OcrPdf.ocrMain
  rw [if_neg (by omega), if_pos h2]

/-- Witness for C5 at `argv = ["p", "f"]` with a filesystem on which no path
exists. -/
theorem ocr_file_not_found_witness :
    OcrPdf.ocrMain [['p'], ['f']] (fun _ => false)
      (fun _ => OcrPdf.OcrEnv.ok []) =
      (⟨false, some ("File not found: ".data ++ ['f']),
        none, none, none, none, none, none, none⟩, 1) :=
  ocr_file_not_found [['p'], ['f']] (fun _ => false)
    (fun _ => OcrPdf.OcrEnv.ok []) (by decide) rfl

/-- C6: For every invocation of either script with no file-path argument
(`len(sys.argv) < 2`), the script prints a record
`\x7b"success": false, "error": <no-path message>\x7d` — `"No file path
provided"` for the text extractor, the equivalent `"No PDF path provided"`
for the OCR script — and exits with status 1. -/
theorem missing_path_argument
    (argv : List (List Char)) (openF : List Char → ExtractPdf.PdfDoc)
    (ex : List Char → Bool) (envF : List Char → OcrPdf.OcrEnv)
    (h : argv.length < 2) :
    ExtractPdf.extractMain argv openF =
      (.simpleErr "No file path provided".data, 1) ∧
    OcrPdf.ocrMain argv ex envF =
      (⟨false, some "No PDF path provided".data,
        none, none, none, none, none, none, none⟩, 1) := by
  constructor
  · unfold ExtractPdf.extractMain
    rw [if_pos h]
  · unfold OcrPdf.ocrMain
    rw [if_pos h]

/-- Witness for C6 at the empty argument vector. -/
theorem missing_path_argument_witness :
    ExtractPdf.extractMain [] (fun _ => ExtractPdf.PdfDoc.ok []) =
      (.simpleErr "No file path provided".data, 1) ∧
    OcrPdf.ocrMain [] (fun _ => false) (fun _ => OcrPdf.OcrEnv.ok []) =
      (⟨false, some "No PDF path provided".data,
        none, none, none, none, none, none, none⟩, 1) :=
  missing_path_argument [] (fun _ => ExtractPdf.PdfDoc.ok [])
    (fun _ => false) (fun _ => OcrPdf.OcrEnv.ok []) (by decide)

/-- C7: For every exception raised inside the text extractor's processing,
the function returns exactly
`\x7b"success": false, "error": <message>, "text": ""\x7d` — no partial text —
and the process still exits with status 0 after printing that record. -/
theorem extract_exception_caught
    (argv : List (List Char)) (openF : List Char → ExtractPdf.PdfDoc)
    (msg : List Char)
    (h1 : 2 ≤ argv.length) (h2 : openF (argv.getD 1 []) = .err msg) :
    ExtractPdf.extractMain argv openF =
      (.result ⟨false, [], none, none, none, some msg⟩, 0) := by
  unfold ExtractPdf.extractMain
  rw [if_neg (by omega), h2]
  rfl

/-- Witness for C7: a run whose pdfplumber call throws with message `"e"`. -/
theorem extract_exception_caught_witness :
    ExtractPdf.extractMain [['p'], ['f']] (fun _ => ExtractPdf.PdfDoc.err ['e']) =
      (.result ⟨false, [], none, none, none, some ['e']⟩, 0) :=
  extract_exception_caught [['p'], ['f']] (fun _ => ExtractPdf.PdfDoc.err ['e'])
    ['e'] (by decide) rfl

/-- C8: For every successful text-extractor run, `quality.longWordCount`
equals the number of whitespace tokens of the full text strictly longer than
20 characters (a threshold distinct from the OCR script's 25). -/
theorem extract_long_word_threshold (pr : List (Option (List Char))) :
    ∃ q, (ExtractPdf.extract_text (.ok pr)).quality = some q ∧
      q.longWordCount =
        ((tokens (ExtractPdf.extractFullText pr)).filter
          fun w => 20 < w.length).length :=
  ⟨_, rfl, rfl⟩

/-- C9: For every successful OCR run on at least one page, the output text
contains the delimiter `--- Page i ---` for each page index `1 ≤ i ≤ pages`,
the text is non-empty, and the token count is at least `4 * pages` (the four
delimiter tokens per page enter the quality metrics even when OCR recognizes
no text). -/
theorem ocr_page_delimiter_invariant (pts : List (List Char))
    (h : 1 ≤ pts.length) :
    (∀ i, 1 ≤ i → i ≤ pts.length →
        OcrPdf.pageDelim i <:+: OcrPdf.ocrFullText pts) ∧
    OcrPdf.ocrFullText pts ≠ [] ∧
    4 * pts.length ≤ (tokens (OcrPdf.ocrFullText pts)).length := by
  have hcount : 4 * pts.length ≤ (tokens (OcrPdf.ocrFullText pts)).length :=
    OcrPdf.word_count_pageBlocks pts 1
  refine ⟨?_, ?_, hcount⟩
  · intro i hi1 hi2
    have hj : i - 1 < pts.length := by omega
    have hmem := OcrPdf.pageBlock_mem pts 1 (i - 1) hj
    have harith : 1 + (i - 1) = i := by omega
    rw [harith] at hmem
    have hpref : OcrPdf.pageDelim i <+:
        OcrPdf.pageBlock i (pts.get ⟨i - 1, hj⟩) :=
      ⟨'\n' :: pts.get ⟨i - 1, hj⟩, rfl⟩
    exact hpref.isInfix.trans (infix_joinSep ['\n', '\n'] _ hmem)
  · intro heq
    have hzero : (tokens (OcrPdf.ocrFullText pts)).length = 0 := by
      rw [heq]
      rfl
    omega

/-- Witness for C9: two pages with empty OCR text contain both delimiters and
produce 8 tokens. -/
theorem ocr_page_delimiter_invariant_witness :
    OcrPdf.pageDelim 1 <:+: OcrPdf.ocrFullText [[], []] ∧
    OcrPdf.pageDelim 2 <:+: OcrPdf.ocrFullText [[], []] ∧
    OcrPdf.ocrFullText [[], []] ≠ [] ∧
    4 * 2 ≤ (tokens (OcrPdf.ocrFullText [[], []])).length := by
  have h := ocr_page_delimiter_invariant [[], []] (by decide)
  exact ⟨h.1 1 (by decide) (by decide), h.1 2 (by decide) (by decide),
    h.2.1, h.2.2⟩

/-- The counterexample argument vector to C10 as stated: `--lang` is the last
command-line argument, but it also occurs earlier, so Python's
`argv.index("--lang")` finds the earlier occurrence and the language is set
to the following argument `"--lang"` instead of staying at the default. -/
def langArgvCe : List (List Char) :=
  ["ocr_pdf.py".data, "f.pdf".data, "--lang".data, "--lang".data]

/-- Counterexample to C10 as stated: on
`["ocr_pdf.py", "f.pdf", "--lang", "--lang"]` the last argument is `--lang`,
yet the parsed language is `"--lang"`, not the default `"ind+eng"`. -/
theorem ocr_lang_flag_counterexample :
    langArgvCe.getLast? = some "--lang".data ∧
    OcrPdf.parseLang langArgvCe = "--lang".data ∧
    OcrPdf.parseLang langArgvCe ≠ "ind+eng".data := by
  refine ⟨by decide, by decide, by decide⟩

/-- C10 (amended): For every invocation of the OCR script where the first
occurrence of `--lang` is the final command-line argument (so no language
value follows it), the script does not fail: the language silently stays at
the default `"ind+eng"` and processing proceeds exactly as with the default
language. -/
theorem ocr_lang_flag_first_occurrence_last
    (argv : List (List Char)) (ex : List Char → Bool)
    (envF : List Char → OcrPdf.OcrEnv)
    (hmem : "--lang".data ∈ argv)
    (hlast : argv.indexOf "--lang".data + 1 = argv.length) :
    OcrPdf.parseLang argv = "ind+eng".data ∧
    OcrPdf.ocrMain argv ex envF =
      OcrPdf.ocrMain argv ex (fun _ => envF "ind+eng".data) := by
  have hlang : OcrPdf.parseLang argv = "ind+eng".data := by
    unfold OcrPdf.parseLang
    rw [if_pos hmem, if_neg (by omega)]
  refine ⟨hlang, ?_⟩
  unfold OcrPdf.ocrMain
  rw [hlang]

/-- Witness for the amended C10: `["p", "f", "--lang"]` keeps the default
language and behaves as a run with the default language. -/
theorem ocr_lang_flag_first_occurrence_last_witness :
    OcrPdf.parseLang [['p'], ['f'], "--lang".data] = "ind+eng".data ∧
    OcrPdf.ocrMain [['p'], ['f'], "--lang".data] (fun _ => true)
        (fun _ => OcrPdf.OcrEnv.ok []) =
      OcrPdf.ocrMain [['p'], ['f'], "--lang".data] (fun _ => true)
        (fun _ => (fun _ => OcrPdf.OcrEnv.ok []) "ind+eng".data) :=
  ocr_lang_flag_first_occurrence_last [['p'], ['f'], "--lang".data]
    (fun _ => true) (fun _ => OcrPdf.OcrEnv.ok []) (by decide) (by decide)

